import Mathlib

/-!
Verification development for the periodic-site-watcher extension.

The definitions below are a shallow embedding of the scheduling and
execution-orchestration core of the repository:
- `src/utils/schedule.js` / `src/service-worker.js`: `computeNextRunAfterSuccess`,
  `computeNextRunAfterFail`;
- `src/service-worker.js`: `initializeStorage` (reconciliation), `runSite`
  (per-site execution engine), `onAlarm` (wake/dispatch loop);
- `src/utils/validation.js`: `isValidApiUrl`.

Time is modelled in epoch milliseconds with a fixed-offset (UTC) calendar:
the JavaScript `Date` mutators `setMinutes`, `setHours`, `setDate`, `getDay`
become modular arithmetic on the epoch value.  Storage documents become
association lists keyed by site id; the external effects of `runSite`
(tab load, content-script extraction, fetch) are supplied by an explicit
environment value, and the function returns the state written together with
the list of network calls it issued.
-/

namespace SiteWatcher

def msPerMinute : Nat := 60000

def msPerHour : Nat := 3600000

def msPerDay : Nat := 86400000

/-- Day of week of an epoch-millisecond instant in the fixed-offset calendar;
day 0 of the epoch (1970-01-01) was a Thursday, i.e. JavaScript day 4. -/
def getDay (now : Nat) : Nat := (now / msPerDay + 4) % 7

/-- Schedule specification: the tagged union stored in `site.schedule`.
The source stores `at` as an `HH:MM` string and splits it with
`at.split(":").map(Number)`; the two parsed numeric components are carried
directly here (`options.js` validates the format before saving). -/
inductive Schedule where
  | hourly (minute : Nat)
  | daily (hh mm : Nat)
  | weekly (dow hh mm : Nat)
  | unknown
deriving Repr, DecidableEq

/-- Validity of a schedule as enforced by the options page
(`saveAllSites` in `src/options.js`): hourly minute 0-59, daily a valid
HH:MM, weekly day-of-week 0-6 with a valid HH:MM. -/
def ValidSchedule : Schedule → Prop
  | .hourly minute => minute ≤ 59
  | .daily hh mm => hh < 24 ∧ mm < 60
  | .weekly dow hh mm => dow ≤ 6 ∧ hh < 24 ∧ mm < 60
  | .unknown => False

instance (s : Schedule) : Decidable (ValidSchedule s) := by
  cases s <;> unfold ValidSchedule <;> infer_instance

/-- `computeNextRunAfterSuccess` from `src/utils/schedule.js` lines 23-59
(duplicated in `src/service-worker.js` lines 16-52 and `src/options.js`
lines 453-484).  `date.setMinutes(m, 0, 0)` becomes
`now - now % msPerHour + m * msPerMinute`; `date.setHours(h, m, 0, 0)`
becomes `now - now % msPerDay + h * msPerHour + m * msPerMinute`;
`date.setDate(date.getDate() + d)` becomes `+ d * msPerDay`. -/
def computeNextRunAfterSuccess (now : Nat) (schedule : Schedule) : Nat :=
  match schedule with
  | .hourly minute =>
      let t := now - now % msPerHour + minute * msPerMinute
      if t ≤ now then t + msPerHour else t
  | .daily hh mm =>
      let t := now - now % msPerDay + hh * msPerHour + mm * msPerMinute
      if t ≤ now then t + msPerDay else t
  | .weekly dow hh mm =>
      let daysToAdd := (dow + 7 - getDay now) % 7
      let t := now - now % msPerDay + hh * msPerHour + mm * msPerMinute
      if daysToAdd = 0 ∧ t ≤ now then t + 7 * msPerDay
      else t + daysToAdd * msPerDay
  | .unknown => now + msPerHour

/-- `computeNextRunAfterFail` from `src/utils/schedule.js` lines 70-72:
always one hour after `now`. -/
def computeNextRunAfterFail (now : Nat) : Nat := now + msPerHour

/-- Association-list lookup, modelling `obj[key]` on a JavaScript object
(keys are unique in a JavaScript object; lookup returns the binding). -/
def lookupAssoc {α : Type} : List (String × α) → String → Option α
  | [], _ => none
  | (k, v) :: rest, key => if k = key then some v else lookupAssoc rest key

/-- Association-list update, modelling `obj[key] = value`: replaces the
binding when the key is present, appends it otherwise. -/
def setAssoc {α : Type} : List (String × α) → String → α → List (String × α)
  | [], key, value => [(key, value)]
  | (k, v) :: rest, key, value =>
      if k = key then (key, value) :: rest else (k, v) :: setAssoc rest key value

/-- `lastStatus` values written by `runSite`. -/
inductive LastStatus where
  | ok
  | fail
deriving Repr, DecidableEq

/-- Per-site run state (`state.bySite[siteId]` in the source).  Each write
in the source creates a fresh object, so fields the written object omits
are `none` here. -/
structure RunState where
  nextRun : Nat
  lastStatus : Option LastStatus := none
  failCount : Option Nat := none
  lastRun : Option Nat := none
  lastError : Option String := none
deriving Repr, DecidableEq

/-- Site configuration entry (`settings.sites[siteId]`). -/
structure Site where
  url : String
  enabled : Bool
  timeoutSec : Nat
  schedule : Schedule
deriving Repr, DecidableEq

/-- The `settings` storage document: the site map plus the optional
`apiUrl` (absent or empty is falsy in the source and falls back to the
default endpoint). -/
structure Settings where
  sites : List (String × Site)
  apiUrl : Option String := none
deriving Repr, DecidableEq

/-- The `state` storage document. -/
structure State where
  bySite : List (String × RunState)
deriving Repr, DecidableEq

/-- `Object.keys(settings.sites)` in source order. -/
def siteKeys (settings : Settings) : List String := settings.sites.map Prod.fst

/-- The replacement text of the sanitizer regex in `src/service-worker.js`
line 298. -/
def redactionMarker : List Char := "[REDACTED]".data

/-- The alternatives of the regex `/password|token|secret|key|api[_-]?key/gi`.
The optional-character class `[_-]?` is expanded into its three concrete
forms, greedy first (`api_key`, `api-key`, then `apikey`).  The five
top-level alternatives begin with pairwise distinct letters, so expanding
the ordered alternation into this candidate list matches exactly the same
occurrences as the regex engine does. -/
def secretPatterns : List (List Char) :=
  ["password".data, "token".data, "secret".data, "key".data,
   "api_key".data, "api-key".data, "apikey".data]

/-- Case-insensitive prefix test: does the (lowercase) pattern occur at the
head of the text? -/
def startsWithCI : List Char → List Char → Bool
  | [], _ => true
  | _ :: _, [] => false
  | p :: ps, c :: cs => (c.toLower = p) && startsWithCI ps cs

/-- Length of the secret pattern matching at the head of the text, if any. -/
def matchLengthAt (s : List Char) : Option Nat :=
  secretPatterns.findSome? fun p => if startsWithCI p s then some p.length else none

/-- Global replacement pass of the sanitizer regex: scan left to right,
replace each matched occurrence with the redaction marker and continue
after it, otherwise keep the character.  Every pattern has length at least
three, so on a match the recursion continues at `List.drop (n - 1) cs`,
which equals `List.drop n (c :: cs)`.  The recursion is driven by a fuel
counter so that it is structural; every step consumes at least one
character, so fuel equal to the length of the text (supplied by
`redactChars`) never runs out. -/
def redactAux : Nat → List Char → List Char
  | 0, _ => []
  | _ + 1, [] => []
  | fuel + 1, c :: cs =>
      match matchLengthAt (c :: cs) with
      | some n => redactionMarker ++ redactAux fuel (List.drop (n - 1) cs)
      | none => c :: redactAux fuel cs

/-- The full left-to-right replacement scan of the text. -/
def redactChars (s : List Char) : List Char := redactAux s.length s

/-- Error-message sanitization from `src/service-worker.js` lines 297-299:
`message.replace(/password|token|secret|key|api[_-]?key/gi, "[REDACTED]")`
followed by `.substring(0, 100)`. -/
def sanitizeErrorMessage (s : String) : String :=
  String.mk (List.take 100 (redactChars s.data))

/-- Whitespace for the purposes of `String.prototype.trim` and of the
leading/trailing stripping the URL constructor performs. -/
def isTrimmableChar (c : Char) : Bool :=
  c = ' ' || c = '\t' || c = '\n' || c = '\r'

/-- Strip leading and trailing whitespace from a character list. -/
def trimChars (l : List Char) : List Char :=
  ((l.dropWhile isTrimmableChar).reverse.dropWhile isTrimmableChar).reverse

/-- `url.trim()`. -/
def trimString (s : String) : String := String.mk (trimChars s.data)

/-- Characters allowed in a URL scheme after the initial letter. -/
def isSchemeChar (c : Char) : Bool := c.isAlphanum || c = '+' || c = '-' || c = '.'

/-- Split `scheme : rest` at the first colon; `none` when the text has no
colon at all. -/
def splitScheme : List Char → Option (List Char × List Char)
  | [] => none
  | c :: cs =>
      if c = ':' then some ([], cs)
      else
        match splitScheme cs with
        | some (sch, rest) => some (c :: sch, rest)
        | none => none

/-- The WHATWG special schemes. -/
def specialSchemes : List String := ["ftp", "file", "http", "https", "ws", "wss"]

/-- Characters ending the host segment of a URL. -/
def hostTerminator (c : Char) : Bool := c = '/' || c = '?' || c = '#'

/-- Parse result of the `URL` constructor, reduced to the field the source
inspects: `protocol` (the lowercased scheme with its trailing colon). -/
structure ParsedUrl where
  protocol : String
deriving Repr, DecidableEq

/-- Shallow model of `new URL(s)` (WHATWG basic URL parser), covering what
the source relies on: leading/trailing whitespace is stripped; the input
must start with a letter-led scheme followed by a colon; a special scheme
other than `file` additionally needs a nonempty, space-free host (slashes
after the colon are optional for special schemes, as in the standard);
`file` and non-special schemes accept any remainder.  On success the
lowercased `protocol` is returned; inputs the constructor would throw on
yield `none`. -/
def parseUrl (s : String) : Option ParsedUrl :=
  match splitScheme (trimChars s.data) with
  | none => none
  | some (sch, rest) =>
      match sch with
      | [] => none
      | c0 :: _ =>
          if c0.isAlpha && sch.all isSchemeChar then
            let scheme := String.mk (sch.map Char.toLower)
            if scheme = "file" then some ⟨scheme ++ ":"⟩
            else if specialSchemes.contains scheme then
              let afterSlashes := rest.dropWhile fun c => c = '/' || c = '\\'
              let host := afterSlashes.takeWhile fun c => !hostTerminator c
              if host.isEmpty then none
              else if host.any fun c => c = ' ' then none
              else some ⟨scheme ++ ":"⟩
            else some ⟨scheme ++ ":"⟩
          else none

/-- `isValidApiUrl` from `src/utils/validation.js` lines 18-28: falsy or
blank input is rejected; otherwise the trimmed input must parse as a URL
whose protocol is `http:` or `https:`. -/
def isValidApiUrl (url : String) : Bool :=
  if trimString url = "" then false
  else
    match parseUrl (trimString url) with
    | none => false
    | some parsed => parsed.protocol = "http:" || parsed.protocol = "https:"

/-- The inline endpoint check of `runSite` (`src/service-worker.js` lines
257-264): `new URL(apiUrl)` must succeed and its protocol must be `http:`
or `https:`; a parse failure and a disallowed protocol are caught by the
same catch block and throw the same `Invalid API URL format` error. -/
def apiUrlAllowed (url : String) : Bool :=
  match parseUrl url with
  | none => false
  | some parsed => parsed.protocol = "http:" || parsed.protocol = "https:"

/-- The hard-coded fallback endpoint (`src/service-worker.js` line 253). -/
def defaultApiUrl : String := "http://localhost:3000/collect"

/-- `settings.apiUrl || defaultApiUrl`: an absent or empty (falsy) value
falls back to the default endpoint. -/
def effectiveApiUrl (settings : Settings) : String :=
  match settings.apiUrl with
  | none => defaultApiUrl
  | some u => if u = "" then defaultApiUrl else u

/-- Outcome of the tab readiness wait (`src/service-worker.js` lines
155-189) as seen by the rest of `runSite`. -/
inductive TabLoadResult where
  | complete
  | timedOut
deriving Repr, DecidableEq

/-- Outcome of the extraction promise (`src/service-worker.js` lines
193-251), one constructor per rejection site plus the payload resolution. -/
inductive ExtractionResult where
  | payload (p : String)
  | collabError (msg : String)
  | injectError (msg : String)
  | sendError (msg : String)
  | timedOut
deriving Repr, DecidableEq

/-- How the extraction promise settles, with the message each rejection
site of the source builds. -/
def extractionOutcome : ExtractionResult → Except String String
  | .payload p => .ok p
  | .collabError msg => .error msg
  | .injectError msg => .error ("Failed to inject content script: " ++ msg)
  | .sendError msg => .error ("Failed to send message to content script: " ++ msg)
  | .timedOut => .error "Content script timeout"

/-- HTTP response of the submission `fetch`. -/
structure FetchResponse where
  ok : Bool
  status : Nat
  statusText : String
deriving Repr, DecidableEq

/-- Environment of one `runSite` invocation: the outcomes the external
collaborators (tab, content script, endpoint) would produce. -/
structure Env where
  tabLoad : TabLoadResult
  extraction : ExtractionResult
  response : FetchResponse
deriving Repr, DecidableEq

/-- Result of `runSite`: the state document it wrote, plus the list of
endpoint URLs it fetched (to express that rejected URLs are never
fetched). -/
structure RunResult where
  state : State
  fetchCalls : List String
deriving Repr, DecidableEq

/-- `(currentSiteState.failCount || 0)` where
`currentSiteState = state.bySite[siteId] || {}`. -/
def prevFailCount (state : State) (siteId : String) : Nat :=
  match lookupAssoc state.bySite siteId with
  | none => 0
  | some rs => rs.failCount.getD 0

/-- `runSite` from `src/service-worker.js` lines 126-320.  The pipeline:
site lookup (an absent site records a failure, lines 129-143, storing its
literal message); tab readiness wait; extraction; endpoint validation;
`fetch`; then the success write (lines 278-285) or the catch-block failure
write with the sanitized message (lines 289-308).  `now` is captured once
(line 146) and used by both writes. -/
def runSite (settings : Settings) (state : State) (siteId : String)
    (now : Nat) (env : Env) : RunResult :=
  match lookupAssoc settings.sites siteId with
  | none =>
      { state := ⟨setAssoc state.bySite siteId
          { nextRun := computeNextRunAfterFail now
            lastStatus := some .fail
            failCount := some (prevFailCount state siteId + 1)
            lastRun := some now
            lastError := some "Site not found in settings" }⟩
        fetchCalls := [] }
  | some site =>
      match env.tabLoad with
      | .timedOut =>
          { state := ⟨setAssoc state.bySite siteId
              { nextRun := computeNextRunAfterFail now
                lastStatus := some .fail
                failCount := some (prevFailCount state siteId + 1)
                lastRun := some now
                lastError := some (sanitizeErrorMessage
                  ("Timeout after " ++ toString site.timeoutSec ++ " seconds")) }⟩
            fetchCalls := [] }
      | .complete =>
          match extractionOutcome env.extraction with
          | .error msg =>
              { state := ⟨setAssoc state.bySite siteId
                  { nextRun := computeNextRunAfterFail now
                    lastStatus := some .fail
                    failCount := some (prevFailCount state siteId + 1)
                    lastRun := some now
                    lastError := some (sanitizeErrorMessage msg) }⟩
                fetchCalls := [] }
          | .ok _payload =>
              let apiUrl := effectiveApiUrl settings
              if apiUrlAllowed apiUrl then
                if env.response.ok then
                  { state := ⟨setAssoc state.bySite siteId
                      { nextRun := computeNextRunAfterSuccess now site.schedule
                        lastStatus := some .ok
                        failCount := some 0
                        lastRun := some now
                        lastError := none }⟩
                    fetchCalls := [apiUrl] }
                else
                  { state := ⟨setAssoc state.bySite siteId
                      { nextRun := computeNextRunAfterFail now
                        lastStatus := some .fail
                        failCount := some (prevFailCount state siteId + 1)
                        lastRun := some now
                        lastError := some (sanitizeErrorMessage
                          ("API returned " ++ toString env.response.status ++ ": "
                            ++ env.response.statusText)) }⟩
                    fetchCalls := [apiUrl] }
              else
                { state := ⟨setAssoc state.bySite siteId
                    { nextRun := computeNextRunAfterFail now
                      lastStatus := some .fail
                      failCount := some (prevFailCount state siteId + 1)
                      lastRun := some now
                      lastError := some (sanitizeErrorMessage
                        ("Invalid API URL format: " ++ apiUrl)) }⟩
                  fetchCalls := [] }

/-- The raw (pre-sanitization) message of the failure path `runSite` takes
in a given environment; `none` when every step succeeds. -/
def rawFailureMessage (settings : Settings) (siteId : String) (env : Env) :
    Option String :=
  match lookupAssoc settings.sites siteId with
  | none => some "Site not found in settings"
  | some site =>
      match env.tabLoad with
      | .timedOut => some ("Timeout after " ++ toString site.timeoutSec ++ " seconds")
      | .complete =>
          match extractionOutcome env.extraction with
          | .error msg => some msg
          | .ok _ =>
              if apiUrlAllowed (effectiveApiUrl settings) then
                if env.response.ok then none
                else some ("API returned " ++ toString env.response.status ++ ": "
                  ++ env.response.statusText)
              else some ("Invalid API URL format: " ++ effectiveApiUrl settings)

/-- One iteration of the reconciliation loop in `initializeStorage`
(`src/service-worker.js` lines 97-104): a configured site id with no
run-state entry gets one holding only
`nextRun = computeNextRunAfterSuccess(now, site.schedule)`.  The check is
against the document being built, as in the source, and the id is recorded
as a performed write. -/
def reconcileStep (settings : Settings) (now : Nat)
    (acc : State × List String) (siteId : String) : State × List String :=
  match lookupAssoc acc.1.bySite siteId with
  | some _ => acc
  | none =>
      match lookupAssoc settings.sites siteId with
      | some site =>
          (⟨setAssoc acc.1.bySite siteId
              { nextRun := computeNextRunAfterSuccess now site.schedule }⟩,
            acc.2 ++ [siteId])
      | none => acc

/-- The reconciliation pass of `initializeStorage`: fold `reconcileStep`
over `Object.keys(settings.sites)`.  Returns the resulting state document
together with the list of site ids whose entries were added (the writes
the pass performed). -/
def reconcile (settings : Settings) (state : State) (now : Nat) :
    State × List String :=
  (siteKeys settings).foldl (reconcileStep settings now) (state, [])

/-- `Object.keys(settings.sites).sort()` (`src/service-worker.js` line
341): JavaScript default sort is lexicographic string comparison. -/
def sortedSiteIds (settings : Settings) : List String :=
  List.insertionSort (· ≤ ·) (siteKeys settings)

/-- One iteration of the dispatch loop of `onAlarm` (lines 343-357):
skip a disabled site; skip a site whose snapshot run state exists with
`nextRun > now`; otherwise run the site against the state produced so far
and append it to the executed list. -/
def onAlarmStep (settings : Settings) (snapshot : State) (now : Nat)
    (env : String → Env) (acc : State × List String) (siteId : String) :
    State × List String :=
  match lookupAssoc settings.sites siteId with
  | none => acc
  | some site =>
      if site.enabled then
        match lookupAssoc snapshot.bySite siteId with
        | some siteState =>
            if now < siteState.nextRun then acc
            else ((runSite settings acc.1 siteId now (env siteId)).state,
              acc.2 ++ [siteId])
        | none =>
            ((runSite settings acc.1 siteId now (env siteId)).state,
              acc.2 ++ [siteId])
      else acc

/-- `onAlarm` from `src/service-worker.js` lines 334-358: reconcile (with
the `Date.now()` of `initializeStorage`, `now0`), then walk the sorted
site ids sequentially with `Date.now()` of the loop, `now`; eligibility is
judged against the reconciled snapshot while each execution reads and
writes the evolving state document.  Returns the final state and the list
of executed site ids in execution order. -/
def onAlarm (settings : Settings) (state : State) (now0 now : Nat)
    (env : String → Env) : State × List String :=
  let snapshot := (reconcile settings state now0).1
  (sortedSiteIds settings).foldl (onAlarmStep settings snapshot now env)
    (snapshot, [])

/-- The selection predicate of the claimed scheduler behavior: the target
is configured with `enabled == true` and its run state is absent or has
`nextRunAt` at most `now`. -/
def eligibleSite (settings : Settings) (snapshot : State) (now : Nat)
    (siteId : String) : Bool :=
  match lookupAssoc settings.sites siteId with
  | none => false
  | some site =>
      site.enabled &&
        match lookupAssoc snapshot.bySite siteId with
        | none => true
        | some siteState => siteState.nextRun ≤ now

/-- The signals that can settle the readiness wait of `runSite` (lines
155-189): the `tabs.onUpdated` event for this tab reaching status
`complete`, the immediate `tabs.get` status poll observing `complete`, and
the `setTimeout` deadline firing. -/
inductive ReadySignal where
  | eventComplete
  | pollComplete
  | timeoutFired
deriving Repr, DecidableEq

/-- How the readiness wait settles: resolution, or rejection with the
timeout error. -/
inductive WaitOutcome where
  | loaded
  | timedOutAfter (timeoutSec : Nat)
deriving Repr, DecidableEq

/-- State of the readiness wait: the `resolved` guard flag, whether the
`tabs.onUpdated` listener is still subscribed, and the settled outcome. -/
structure WaitState where
  resolved : Bool
  listenerAttached : Bool
  outcome : Option WaitOutcome
deriving Repr, DecidableEq

/-- State right after `chrome.tabs.onUpdated.addListener(listener)`:
unresolved, subscribed, unsettled. -/
def initialWaitState : WaitState :=
  { resolved := false, listenerAttached := true, outcome := none }

/-- One signal delivery.  Every handler in the source is guarded by
`!resolved`; on its first activation it sets the flag, removes the
listener and settles the promise (the event and poll handlers also clear
the timer, which needs no modelling once `resolved` blocks the timeout
handler). -/
def readinessStep (timeoutSec : Nat) (st : WaitState) (sig : ReadySignal) :
    WaitState :=
  if st.resolved then st
  else
    match sig with
    | .eventComplete =>
        { resolved := true, listenerAttached := false, outcome := some .loaded }
    | .pollComplete =>
        { resolved := true, listenerAttached := false, outcome := some .loaded }
    | .timeoutFired =>
        { resolved := true, listenerAttached := false,
          outcome := some (.timedOutAfter timeoutSec) }

/-- One signal delivery together with its accounting: the second
component counts deliveries that found `resolved` still false, i.e. the
deliveries that actually settled the wait. -/
def readinessAccStep (timeoutSec : Nat) (acc : WaitState × Nat)
    (sig : ReadySignal) : WaitState × Nat :=
  (readinessStep timeoutSec acc.1 sig,
    acc.2 + if acc.1.resolved then 0 else 1)

/-- Deliver a sequence of signals to the readiness wait, counting how many
of them settled it. -/
def readinessRun (timeoutSec : Nat) (sigs : List ReadySignal) :
    WaitState × Nat :=
  sigs.foldl (readinessAccStep timeoutSec) (initialWaitState, 0)

/-- `maxRetries` of the extraction-handshake send loop (line 224). -/
def maxRetries : Nat := 5

/-- The fixed delay between send attempts (lines 230 and 237). -/
def retryDelayMs : Nat := 50

/-- The `trySendMessage` retry loop (lines 225-236): `send k` tells
whether the `(k+1)`-th `chrome.tabs.sendMessage` attempt succeeds; a
failed attempt with `retries < maxRetries` re-runs after the fixed delay
with `retries` incremented, and otherwise the handshake is rejected. -/
def trySendMessage (send : Nat → Bool) (retries : Nat) : Bool :=
  if send retries then true
  else if retries < maxRetries then trySendMessage send (retries + 1)
  else false
termination_by maxRetries + 1 - retries
decreasing_by
  simp [maxRetries] at *
  omega

/-- Whether the extraction-handshake send step as a whole succeeds: the
loop is entered at `retries = 0`. -/
def extractionSendSucceeds (send : Nat → Bool) : Bool := trySendMessage send 0

/-- The inner extraction deadline (line 250):
`(site.timeoutSec - 5) * 1000`, in JavaScript number arithmetic. -/
def contentScriptTimeoutMs (timeoutSec : Nat) : Int :=
  ((timeoutSec : Int) - 5) * 1000

/-- The outer readiness deadline (line 164): `site.timeoutSec * 1000`. -/
def tabLoadTimeoutMs (timeoutSec : Nat) : Int := (timeoutSec : Int) * 1000

/-- What one selected execution does to the state document: a full
`runSite` invocation reading and writing the evolving state. -/
def execStep (settings : Settings) (now : Nat) (env : String → Env)
    (st : State) (siteId : String) : State :=
  (runSite settings st siteId now (env siteId)).state

end SiteWatcher

namespace SiteWatcher

theorem lookupAssoc_setAssoc_self {α : Type} (l : List (String × α))
    (key : String) (value : α) :
    lookupAssoc (setAssoc l key value) key = some value := by
  induction l with
  | nil => simp [setAssoc, lookupAssoc]
  | cons hd tl ih =>
      obtain ⟨k, v⟩ := hd
      by_cases h : k = key <;> simp [setAssoc, lookupAssoc, h, ih]

theorem lookupAssoc_setAssoc_ne {α : Type} (l : List (String × α))
    (key other : String) (value : α) (h : other ≠ key) :
    lookupAssoc (setAssoc l key value) other = lookupAssoc l other := by
  induction l with
  | nil => simp [setAssoc, lookupAssoc, Ne.symm h]
  | cons hd tl ih =>
      obtain ⟨k, v⟩ := hd
      by_cases hk : k = key
      · subst hk
        simp [setAssoc, lookupAssoc, Ne.symm h]
      · simp [setAssoc, lookupAssoc, hk, ih]


/-- C4: for every `now` and every valid schedule (hourly with minute 0-59,
daily with a valid HH:MM, weekly with dayOfWeek 0-6 and a valid HH:MM),
`nextRunAfterSuccess(now, schedule)` is strictly greater than `now`. -/
theorem nextRunAfterSuccess_gt_now (now : Nat) (schedule : Schedule)
    (hv : ValidSchedule schedule) :
    now < computeNextRunAfterSuccess now schedule := by
  cases schedule with
  | hourly minute =>
      simp only [computeNextRunAfterSuccess, msPerHour, msPerMinute]
      have h1 : now % 3600000 < 3600000 := Nat.mod_lt _ (by omega)
      have h2 : now % 3600000 ≤ now := Nat.mod_le _ _
      split <;> omega
  | daily hh mm =>
      simp only [computeNextRunAfterSuccess, msPerDay, msPerHour, msPerMinute]
      have h1 : now % 86400000 < 86400000 := Nat.mod_lt _ (by omega)
      have h2 : now % 86400000 ≤ now := Nat.mod_le _ _
      split <;> omega
  | weekly dow hh mm =>
      simp only [computeNextRunAfterSuccess, msPerDay, msPerHour, msPerMinute]
      have h1 : now % 86400000 < 86400000 := Nat.mod_lt _ (by omega)
      have h2 : now % 86400000 ≤ now := Nat.mod_le _ _
      have h3 : (dow + 7 - getDay now) % 7 < 7 := Nat.mod_lt _ (by omega)
      split
      · omega
      · omega
  | unknown => exact hv.elim

/-- Witness for C4 at a concrete input: `now` = 45 minutes past the epoch
hour with an hourly schedule at minute 30 advances into the next hour. -/
theorem nextRunAfterSuccess_gt_now_witness :
    ValidSchedule (Schedule.hourly 30) ∧
      2700000 < computeNextRunAfterSuccess 2700000 (Schedule.hourly 30) :=
  ⟨by decide, nextRunAfterSuccess_gt_now 2700000 (Schedule.hourly 30) (by decide)⟩

/-- Helper: on a fully successful run, `runSite` writes the success
record of lines 279-284. -/
theorem runSite_success_write (settings : Settings) (state : State)
    (siteId : String) (now : Nat) (env : Env) :
    ∀ site, lookupAssoc settings.sites siteId = some site →
      rawFailureMessage settings siteId env = none →
      lookupAssoc (runSite settings state siteId now env).state.bySite siteId =
        some { nextRun := computeNextRunAfterSuccess now site.schedule
               lastStatus := some .ok
               failCount := some 0
               lastRun := some now
               lastError := none } := by
  intro site hsite hnone
  simp only [runSite, rawFailureMessage, hsite] at hnone ⊢
  cases htab : env.tabLoad with
  | timedOut => simp [htab] at hnone
  | complete =>
      simp only [htab] at hnone ⊢
      cases hext : extractionOutcome env.extraction with
      | error msg => simp [hext] at hnone
      | ok p =>
          simp only [hext] at hnone ⊢
          by_cases hurl : apiUrlAllowed (effectiveApiUrl settings) = true
          · simp only [hurl, if_true] at hnone ⊢
            by_cases hok : env.response.ok = true
            · simp [hok, lookupAssoc_setAssoc_self]
            · simp [hok] at hnone
          · simp [hurl] at hnone

/-- Helper: on any failing run, `runSite` writes the failure record of
lines 301-307 (with the configuration-inconsistency path of lines 134-141
storing its literal message, which the sanitizer maps to itself). -/
theorem runSite_failure_write (settings : Settings) (state : State)
    (siteId : String) (now : Nat) (env : Env) :
    ∀ msg, rawFailureMessage settings siteId env = some msg →
      lookupAssoc (runSite settings state siteId now env).state.bySite siteId =
        some { nextRun := computeNextRunAfterFail now
               lastStatus := some .fail
               failCount := some (prevFailCount state siteId + 1)
               lastRun := some now
               lastError := some (sanitizeErrorMessage msg) } := by
  have hlit : sanitizeErrorMessage "Site not found in settings" =
      "Site not found in settings" := by decide
  intro msg hmsg
  cases hsite : lookupAssoc settings.sites siteId with
    | none =>
        simp only [runSite, rawFailureMessage, hsite, Option.some.injEq] at hmsg ⊢
        subst hmsg
        simp [hlit, lookupAssoc_setAssoc_self]
    | some site =>
        simp only [runSite, rawFailureMessage, hsite] at hmsg ⊢
        cases htab : env.tabLoad with
        | timedOut =>
            simp only [htab, Option.some.injEq] at hmsg ⊢
            subst hmsg
            simp [lookupAssoc_setAssoc_self]
        | complete =>
            simp only [htab] at hmsg ⊢
            cases hext : extractionOutcome env.extraction with
            | error m =>
                simp only [hext, Option.some.injEq] at hmsg ⊢
                subst hmsg
                simp [lookupAssoc_setAssoc_self]
            | ok p =>
                simp only [hext] at hmsg ⊢
                by_cases hurl : apiUrlAllowed (effectiveApiUrl settings) = true
                · simp only [hurl, if_true] at hmsg ⊢
                  by_cases hok : env.response.ok = true
                  · simp [hok] at hmsg
                  · simp only [hok, Bool.false_eq_true, if_false,
                      Option.some.injEq] at hmsg ⊢
                    subst hmsg
                    simp [hok, lookupAssoc_setAssoc_self]
                · simp only [hurl, Bool.false_eq_true, if_false,
                    Option.some.injEq] at hmsg ⊢
                  subst hmsg
                  simp [hurl, lookupAssoc_setAssoc_self]

/-- C1: for every per-target execution, if all steps succeed the engine
writes `nextRun = computeNextRunAfterSuccess(now, site.schedule)`,
`lastStatus = ok`, `failCount = 0`, `lastRun = now` and no `lastError`;
if any step fails it writes `nextRun = computeNextRunAfterFail(now)`
(that is, `now` plus one hour), `lastStatus = fail`, `failCount` = the
previous fail count plus one (zero when there is no prior state or no
prior count), `lastRun = now`, and `lastError` = the sanitized message. -/
theorem runSite_outcome_write (settings : Settings) (state : State)
    (siteId : String) (now : Nat) (env : Env) :
    (∀ site, lookupAssoc settings.sites siteId = some site →
        rawFailureMessage settings siteId env = none →
        lookupAssoc (runSite settings state siteId now env).state.bySite siteId =
          some { nextRun := computeNextRunAfterSuccess now site.schedule
                 lastStatus := some .ok
                 failCount := some 0
                 lastRun := some now
                 lastError := none })
    ∧ (∀ msg, rawFailureMessage settings siteId env = some msg →
        lookupAssoc (runSite settings state siteId now env).state.bySite siteId =
          some { nextRun := computeNextRunAfterFail now
                 lastStatus := some .fail
                 failCount := some (prevFailCount state siteId + 1)
                 lastRun := some now
                 lastError := some (sanitizeErrorMessage msg) }) :=
  ⟨runSite_success_write settings state siteId now env,
    runSite_failure_write settings state siteId now env⟩

/-- Witness for C1: a one-site configuration where every step succeeds
receives the success record, and one where the extraction collaborator
reports an error receives the failure record with the incremented count. -/
theorem runSite_outcome_write_witness :
    (lookupAssoc (runSite
        ⟨[("t1", ⟨"https://example.com", true, 30, Schedule.hourly 0⟩)], none⟩
        ⟨[("t1", { nextRun := 0 })]⟩ "t1" 1000
        ⟨.complete, .payload "data", ⟨true, 200, "OK"⟩⟩).state.bySite "t1" =
      some { nextRun := computeNextRunAfterSuccess 1000 (Schedule.hourly 0)
             lastStatus := some .ok
             failCount := some 0
             lastRun := some 1000
             lastError := none })
    ∧ (lookupAssoc (runSite
        ⟨[("t1", ⟨"https://example.com", true, 30, Schedule.hourly 0⟩)], none⟩
        ⟨[("t1", { nextRun := 0 })]⟩ "t1" 1000
        ⟨.complete, .collabError "boom", ⟨true, 200, "OK"⟩⟩).state.bySite "t1" =
      some { nextRun := computeNextRunAfterFail 1000
             lastStatus := some .fail
             failCount := some (prevFailCount ⟨[("t1", { nextRun := 0 })]⟩ "t1" + 1)
             lastRun := some 1000
             lastError := some (sanitizeErrorMessage "boom") }) := by
  constructor
  · exact (runSite_outcome_write
      ⟨[("t1", ⟨"https://example.com", true, 30, Schedule.hourly 0⟩)], none⟩
      ⟨[("t1", { nextRun := 0 })]⟩ "t1" 1000
      ⟨.complete, .payload "data", ⟨true, 200, "OK"⟩⟩).1
      ⟨"https://example.com", true, 30, Schedule.hourly 0⟩ (by decide) (by decide)
  · exact (runSite_outcome_write
      ⟨[("t1", ⟨"https://example.com", true, 30, Schedule.hourly 0⟩)], none⟩
      ⟨[("t1", { nextRun := 0 })]⟩ "t1" 1000
      ⟨.complete, .collabError "boom", ⟨true, 200, "OK"⟩⟩).2 "boom" (by decide)

/-- C9: on every failure path, the stored `lastError` equals the raw error
message with all case-insensitive occurrences of the secret tokens
(password, token, secret, key and the api-key variants) replaced by the
redaction marker and then truncated to at most 100 characters; an input
still longer than 100 characters after redaction is stored as exactly 100
characters; and an input containing `apikey=abc123` is redacted before
storage. -/
theorem lastError_always_sanitized :
    (∀ settings state siteId now env msg rs,
        rawFailureMessage settings siteId env = some msg →
        lookupAssoc (runSite settings state siteId now env).state.bySite siteId =
          some rs →
        rs.lastError = some (sanitizeErrorMessage msg))
    ∧ sanitizeErrorMessage "fetch failed: apikey=abc123" =
        "fetch failed: [REDACTED]=abc123"
    ∧ (∀ s, (sanitizeErrorMessage s).length ≤ 100)
    ∧ (∀ s, 100 ≤ (redactChars s.data).length →
        (sanitizeErrorMessage s).length = 100) := by
  refine ⟨?_, by decide, ?_, ?_⟩
  · intro settings state siteId now env msg rs hmsg hrs
    have h := runSite_failure_write settings state siteId now env msg hmsg
    rw [hrs, Option.some.injEq] at h
    rw [h]
  · intro s
    have h : (sanitizeErrorMessage s).length =
        (List.take 100 (redactChars s.data)).length := rfl
    rw [h, List.length_take]
    omega
  · intro s hlen
    have h : (sanitizeErrorMessage s).length =
        (List.take 100 (redactChars s.data)).length := rfl
    rw [h, List.length_take]
    omega

set_option maxRecDepth 8192 in
/-- Witness for C9: the extraction-error run stores the sanitized message,
and a 150-character input is stored as exactly 100 characters. -/
theorem lastError_always_sanitized_witness :
    ({ nextRun := 3600000
       lastStatus := some LastStatus.fail
       failCount := some 1
       lastRun := some 0
       lastError := some "boom" : RunState }).lastError =
      some (sanitizeErrorMessage "boom")
    ∧ (sanitizeErrorMessage (String.mk (List.replicate 150 'a'))).length = 100 :=
  ⟨lastError_always_sanitized.1
      ⟨[("t1", ⟨"https://example.com", true, 30, Schedule.hourly 0⟩)], none⟩
      ⟨[]⟩ "t1" 0 ⟨.complete, .collabError "boom", ⟨true, 200, "OK"⟩⟩ "boom"
      { nextRun := 3600000
        lastStatus := some LastStatus.fail
        failCount := some 1
        lastRun := some 0
        lastError := some "boom" } (by decide) (by decide),
    lastError_always_sanitized.2.2.2 (String.mk (List.replicate 150 'a'))
      (by decide)⟩

/-- Helper: once the wait is resolved, further signal deliveries change
nothing and settle nothing. -/
theorem readinessRun_fixed (timeoutSec : Nat) (sigs : List ReadySignal)
    (st : WaitState) (n : Nat) (h : st.resolved = true) :
    sigs.foldl (readinessAccStep timeoutSec) (st, n) = (st, n) := by
  induction sigs with
  | nil => rfl
  | cons hd tl ih =>
      have hstep : readinessAccStep timeoutSec (st, n) hd = (st, n) := by
        simp [readinessAccStep, readinessStep, h]
      rw [List.foldl_cons, hstep, ih]

/-- C5: during the readiness wait, whatever signals arrive and in whatever
order (the load-complete event, the immediate status poll, the timeout),
the wait settles exactly once: the first signal wins, every later signal
is ignored, and the event subscription is removed on first resolution; a
timeout arriving first (in particular as the only signal) rejects with the
timeout outcome, again removing the subscription. -/
theorem readiness_wait_single_resolution (timeoutSec : Nat)
    (first : ReadySignal) (rest : List ReadySignal) :
    (readinessRun timeoutSec (first :: rest)).2 = 1
    ∧ (readinessRun timeoutSec (first :: rest)).1 =
        readinessStep timeoutSec initialWaitState first
    ∧ (readinessRun timeoutSec (first :: rest)).1.resolved = true
    ∧ (readinessRun timeoutSec (first :: rest)).1.listenerAttached = false
    ∧ (first = .timeoutFired →
        (readinessRun timeoutSec (first :: rest)).1.outcome =
          some (.timedOutAfter timeoutSec))
    ∧ (first ≠ .timeoutFired →
        (readinessRun timeoutSec (first :: rest)).1.outcome = some .loaded) := by
  have hfirst : readinessAccStep timeoutSec (initialWaitState, 0) first =
      (readinessStep timeoutSec initialWaitState first, 1) := by
    simp [readinessAccStep, initialWaitState]
  have hres : (readinessStep timeoutSec initialWaitState first).resolved = true := by
    cases first <;> simp [readinessStep, initialWaitState]
  have hrun : readinessRun timeoutSec (first :: rest) =
      (readinessStep timeoutSec initialWaitState first, 1) := by
    rw [readinessRun, List.foldl_cons, hfirst, readinessRun_fixed _ _ _ _ hres]
  refine ⟨by rw [hrun], by rw [hrun], by rw [hrun]; exact hres, ?_, ?_, ?_⟩
  · rw [hrun]
    cases first <;> simp [readinessStep, initialWaitState]
  · intro hf
    subst hf
    rw [hrun]
    simp [readinessStep, initialWaitState]
  · intro hf
    rw [hrun]
    cases first with
    | eventComplete => simp [readinessStep, initialWaitState]
    | pollComplete => simp [readinessStep, initialWaitState]
    | timeoutFired => exact absurd rfl hf

/-- Witness for C5: both completion signals fire (the event first, then
the immediate poll); the wait settles once with the loaded outcome and the
subscription removed. -/
theorem readiness_wait_single_resolution_witness :
    (readinessRun 30 [ReadySignal.eventComplete, ReadySignal.pollComplete]).2 = 1
    ∧ (readinessRun 30
        [ReadySignal.eventComplete, ReadySignal.pollComplete]).1.listenerAttached
        = false
    ∧ (readinessRun 30
        [ReadySignal.eventComplete, ReadySignal.pollComplete]).1.outcome
        = some WaitOutcome.loaded :=
  ⟨(readiness_wait_single_resolution 30 .eventComplete [.pollComplete]).1,
    (readiness_wait_single_resolution 30 .eventComplete [.pollComplete]).2.2.2.1,
    (readiness_wait_single_resolution 30 .eventComplete [.pollComplete]).2.2.2.2.2
      (by decide)⟩

/-- Helper: characterization of the send-retry loop.  Entered at any
`retries ≤ maxRetries` it succeeds exactly when some attempt with index
between `retries` and `maxRetries` succeeds.  `fuel` drives the
induction. -/
theorem trySendMessage_true_iff (send : Nat → Bool) :
    ∀ fuel retries, maxRetries + 1 - retries ≤ fuel → retries ≤ maxRetries →
      (trySendMessage send retries = true ↔
        ∃ k, retries ≤ k ∧ k ≤ maxRetries ∧ send k = true) := by
  intro fuel
  induction fuel with
  | zero => intro retries h1 h2; omega
  | succ fuel ih =>
      intro retries h1 h2
      rw [trySendMessage]
      by_cases hs : send retries = true
      · simp only [hs, if_true]
        exact iff_of_true trivial ⟨retries, le_rfl, h2, hs⟩
      · simp only [hs, Bool.false_eq_true, if_false]
        by_cases hr : retries < maxRetries
        · simp only [hr, if_true]
          rw [ih (retries + 1) (by omega) (by omega)]
          constructor
          · rintro ⟨k, hk1, hk2, hk3⟩
            exact ⟨k, by omega, hk2, hk3⟩
          · rintro ⟨k, hk1, hk2, hk3⟩
            refine ⟨k, ?_, hk2, hk3⟩
            rcases Nat.eq_or_lt_of_le hk1 with he | hl
            · rw [← he] at hk3; exact absurd hk3 hs
            · omega
        · simp only [hr, if_false]
          refine iff_of_false (by simp) ?_
          rintro ⟨k, hk1, hk2, hk3⟩
          have hke : k = retries := by omega
          rw [hke] at hk3
          exact hs hk3

/-- C6 (amended): the extraction-handshake send is retried with a fixed
50ms delay, `maxRetries = 5` retries after the initial send, so up to six
attempts in total; if the send fails four times and succeeds on the fifth
attempt the step succeeds; and the step yields a handshake failure if and
only if all six attempts fail. -/
theorem extraction_send_retry_bound (send : Nat → Bool) :
    ((∀ k, k < 4 → send k = false) → send 4 = true →
        extractionSendSucceeds send = true)
    ∧ (extractionSendSucceeds send = true ↔
        ∃ k, k ≤ maxRetries ∧ send k = true)
    ∧ (extractionSendSucceeds send = false ↔
        ∀ k, k ≤ maxRetries → send k = false)
    ∧ retryDelayMs = 50 := by
  have hchar := trySendMessage_true_iff send (maxRetries + 1) 0 (by omega)
    (by omega)
  have hchar0 : extractionSendSucceeds send = true ↔
      ∃ k, k ≤ maxRetries ∧ send k = true := by
    rw [extractionSendSucceeds, hchar]
    constructor
    · rintro ⟨k, _, hk2, hk3⟩; exact ⟨k, hk2, hk3⟩
    · rintro ⟨k, hk2, hk3⟩; exact ⟨k, Nat.zero_le k, hk2, hk3⟩
  refine ⟨?_, hchar0, ?_, rfl⟩
  · intro _ h4
    exact hchar0.mpr ⟨4, by decide, h4⟩
  · rw [← Bool.not_eq_true, hchar0]
    push_neg
    constructor
    · intro h k hk
      have := h k
      by_cases hsk : send k = true
      · exact absurd hk (by simpa [hsk] using this)
      · simpa using hsk
    · intro h k
      intro hk
      have := h k hk
      simp [this]

/-- Witness for C6 (amended): the send fails on the first four attempts
and succeeds on the fifth; the step succeeds. -/
theorem extraction_send_retry_bound_witness :
    extractionSendSucceeds (fun n => decide (n = 4)) = true :=
  (extraction_send_retry_bound (fun n => decide (n = 4))).1
    (by decide) (by decide)

/-- Counterexample for C6 as stated: an endpoint whose first five send
attempts all fail and whose sixth attempt succeeds.  Every attempt within
the claimed bound of five fails, yet the handshake step succeeds, so
"handshake failure if and only if all (five) attempts fail" is false of
the code, whose loop performs one initial send plus five retries. -/
theorem extraction_send_retry_counterexample :
    (∀ k, k < 5 → (fun n => decide (n = 5)) k = false)
    ∧ extractionSendSucceeds (fun n => decide (n = 5)) = true := by
  constructor
  · decide
  · exact (trySendMessage_true_iff (fun n => decide (n = 5))
      (maxRetries + 1) 0 (by omega) (by omega)).mpr
      ⟨5, by omega, by decide, by decide⟩

/-- C7: for every `timeoutSec` in the allowed range 1-300, the inner
deadline bounding the wait for the extraction response is strictly less
than the outer session deadline, with a fixed margin of exactly 5 seconds
(5000 ms); and an extraction wait that exceeds this inner deadline makes
the run fail with the handshake-timeout message. -/
theorem inner_extraction_deadline (timeoutSec : Nat)
    (h1 : 1 ≤ timeoutSec) (h300 : timeoutSec ≤ 300) :
    contentScriptTimeoutMs timeoutSec < tabLoadTimeoutMs timeoutSec
    ∧ tabLoadTimeoutMs timeoutSec - contentScriptTimeoutMs timeoutSec = 5000
    ∧ (∀ settings state siteId site now resp rs,
        lookupAssoc settings.sites siteId = some site →
        lookupAssoc (runSite settings state siteId now
            ⟨.complete, .timedOut, resp⟩).state.bySite siteId = some rs →
        rs.lastStatus = some .fail ∧
          rs.lastError = some (sanitizeErrorMessage "Content script timeout")) := by
  refine ⟨?_, ?_, ?_⟩
  · simp only [contentScriptTimeoutMs, tabLoadTimeoutMs]
    omega
  · simp only [contentScriptTimeoutMs, tabLoadTimeoutMs]
    ring
  · intro settings state siteId site now resp rs hsite hrs
    have hraw : rawFailureMessage settings siteId ⟨.complete, .timedOut, resp⟩ =
        some "Content script timeout" := by
      simp [rawFailureMessage, hsite, extractionOutcome]
    have h := runSite_failure_write settings state siteId now
      ⟨.complete, .timedOut, resp⟩ "Content script timeout" hraw
    rw [hrs, Option.some.injEq] at h
    rw [h]
    exact ⟨rfl, rfl⟩

/-- Witness for C7 at `timeoutSec = 30`: the inner deadline is 25000 ms
against the outer 30000 ms. -/
theorem inner_extraction_deadline_witness :
    contentScriptTimeoutMs 30 < tabLoadTimeoutMs 30
    ∧ tabLoadTimeoutMs 30 - contentScriptTimeoutMs 30 = 5000 :=
  ⟨(inner_extraction_deadline 30 (by decide) (by decide)).1,
    (inner_extraction_deadline 30 (by decide) (by decide)).2.1⟩

/-- C8: the submission-endpoint URL validation accepts a URL exactly when
it parses and its scheme is http or https; `http://x` and `https://x` are
accepted while `file:///etc/passwd`, `ftp://x`, the empty string and an
unparsable string are rejected; and when the effective endpoint fails the
check, `runSite` performs no network call. -/
theorem apiUrl_scheme_allowlist :
    (∀ url, isValidApiUrl url = true ↔
        ∃ parsed, parseUrl (trimString url) = some parsed ∧
          (parsed.protocol = "http:" ∨ parsed.protocol = "https:"))
    ∧ isValidApiUrl "http://x" = true
    ∧ isValidApiUrl "https://x" = true
    ∧ isValidApiUrl "file:///etc/passwd" = false
    ∧ isValidApiUrl "ftp://x" = false
    ∧ isValidApiUrl "" = false
    ∧ isValidApiUrl "not a url" = false
    ∧ (∀ settings state siteId now env,
        apiUrlAllowed (effectiveApiUrl settings) = false →
        (runSite settings state siteId now env).fetchCalls = []) := by
  refine ⟨?_, by decide, by decide, by decide, by decide, by decide, by decide, ?_⟩
  · intro url
    unfold isValidApiUrl
    by_cases he : trimString url = ""
    · have hp : parseUrl ("" : String) = none := by decide
      simp [he, hp]
    · simp only [he, if_false]
      cases hp : parseUrl (trimString url) with
      | none => simp
      | some parsed => simp
  · intro settings state siteId now env hbad
    simp only [runSite]
    cases hsite : lookupAssoc settings.sites siteId with
    | none => rfl
    | some site =>
        cases htab : env.tabLoad with
        | timedOut => rfl
        | complete =>
            cases hext : extractionOutcome env.extraction with
            | error m => rfl
            | ok p => simp [hbad]

/-- Witness for C8: the file scheme is rejected, and a configuration whose
endpoint has the file scheme performs no fetch. -/
theorem apiUrl_scheme_allowlist_witness :
    isValidApiUrl "file:///etc/passwd" = false
    ∧ (runSite ⟨[("t1", ⟨"https://example.com", true, 30, Schedule.hourly 0⟩)],
          some "file:///etc/passwd"⟩
        ⟨[]⟩ "t1" 0
        ⟨.complete, .payload "data", ⟨true, 200, "OK"⟩⟩).fetchCalls = [] :=
  ⟨apiUrl_scheme_allowlist.2.2.2.1,
    apiUrl_scheme_allowlist.2.2.2.2.2.2.2
      ⟨[("t1", ⟨"https://example.com", true, 30, Schedule.hourly 0⟩)],
        some "file:///etc/passwd"⟩
      ⟨[]⟩ "t1" 0 ⟨.complete, .payload "data", ⟨true, 200, "OK"⟩⟩ (by decide)⟩

/-- C10: when the configured submission endpoint is unset or empty, the
submission step does not fail validation: the effective endpoint is the
hard-coded default `http://localhost:3000/collect`, which passes the
http/https allow-list, and every run that reaches the submission step
POSTs to it. -/
theorem default_endpoint_when_unset (settings : Settings) (state : State)
    (siteId : String) (site : Site) (now : Nat) (p : String)
    (resp : FetchResponse)
    (hapi : settings.apiUrl = none ∨ settings.apiUrl = some "")
    (hsite : lookupAssoc settings.sites siteId = some site) :
    effectiveApiUrl settings = defaultApiUrl
    ∧ apiUrlAllowed defaultApiUrl = true
    ∧ (runSite settings state siteId now
        ⟨.complete, .payload p, resp⟩).fetchCalls = [defaultApiUrl] := by
  have heff : effectiveApiUrl settings = defaultApiUrl := by
    rcases hapi with h | h <;> simp [effectiveApiUrl, h]
  have hok : apiUrlAllowed defaultApiUrl = true := by decide
  refine ⟨heff, hok, ?_⟩
  simp only [runSite, hsite, extractionOutcome, heff, hok, if_true]
  cases hresp : resp.ok <;> simp [hresp]

/-- Witness for C10: a configuration with no `apiUrl` set fetches exactly
the default endpoint. -/
theorem default_endpoint_when_unset_witness :
    effectiveApiUrl ⟨[("t1", ⟨"https://example.com", true, 30,
        Schedule.hourly 0⟩)], none⟩ = defaultApiUrl
    ∧ apiUrlAllowed defaultApiUrl = true
    ∧ (runSite ⟨[("t1", ⟨"https://example.com", true, 30, Schedule.hourly 0⟩)],
          none⟩ ⟨[]⟩ "t1" 0
        ⟨.complete, .payload "data", ⟨true, 200, "OK"⟩⟩).fetchCalls =
      [defaultApiUrl] :=
  default_endpoint_when_unset
    ⟨[("t1", ⟨"https://example.com", true, 30, Schedule.hourly 0⟩)], none⟩
    ⟨[]⟩ "t1" ⟨"https://example.com", true, 30, Schedule.hourly 0⟩ 0 "data"
    ⟨true, 200, "OK"⟩ (Or.inl rfl) (by decide)

/-- Helper: a successful lookup means the key occurs among the keys. -/
theorem lookupAssoc_some_mem {α : Type} (l : List (String × α)) (id : String)
    (v : α) (h : lookupAssoc l id = some v) : id ∈ l.map Prod.fst := by
  induction l with
  | nil => cases h
  | cons hd tl ih =>
      obtain ⟨k, w⟩ := hd
      by_cases hk : k = id
      · simp [hk]
      · simp only [lookupAssoc, hk, if_false] at h
        simp [ih h]

/-- Helper: every key has a successful lookup. -/
theorem mem_lookupAssoc_isSome {α : Type} (l : List (String × α)) (id : String)
    (h : id ∈ l.map Prod.fst) : (lookupAssoc l id).isSome := by
  induction l with
  | nil => cases h
  | cons hd tl ih =>
      obtain ⟨k, w⟩ := hd
      by_cases hk : k = id
      · simp [lookupAssoc, hk]
      · simp only [List.map_cons, List.mem_cons] at h
        rcases h with h | h
        · exact absurd h.symm hk
        · simp [lookupAssoc, hk, ih h]

/-- Helper: a reconcile step never changes an entry that already exists. -/
theorem reconcileStep_preserves (settings : Settings) (now : Nat)
    (acc : State × List String) (k id : String) (rs : RunState)
    (h : lookupAssoc acc.1.bySite id = some rs) :
    lookupAssoc (reconcileStep settings now acc k).1.bySite id = some rs := by
  cases hk : lookupAssoc acc.1.bySite k with
  | some v => simp [reconcileStep, hk, h]
  | none =>
      cases hs : lookupAssoc settings.sites k with
      | none => simp [reconcileStep, hk, hs, h]
      | some site =>
          have hne : id ≠ k := by
            intro he
            rw [he, hk] at h
            cases h
          simp [reconcileStep, hk, hs, lookupAssoc_setAssoc_ne _ _ _ _ hne, h]

/-- Helper: the reconcile fold preserves every existing entry. -/
theorem reconcileFold_preserves (settings : Settings) (now : Nat)
    (l : List String) :
    ∀ acc id rs, lookupAssoc acc.1.bySite id = some rs →
      lookupAssoc ((l.foldl (reconcileStep settings now) acc).1.bySite) id =
        some rs := by
  induction l with
  | nil => intro acc id rs h; exact h
  | cons hd tl ih =>
      intro acc id rs h
      rw [List.foldl_cons]
      exact ih _ _ _ (reconcileStep_preserves settings now acc hd id rs h)

/-- Helper: the reconcile fold leaves ids outside the folded list alone. -/
theorem reconcileFold_untouched (settings : Settings) (now : Nat)
    (l : List String) :
    ∀ acc id, id ∉ l →
      lookupAssoc ((l.foldl (reconcileStep settings now) acc).1.bySite) id =
        lookupAssoc acc.1.bySite id := by
  induction l with
  | nil => intro acc id _; rfl
  | cons hd tl ih =>
      intro acc id hid
      have hidtl : id ∉ tl := fun h => hid (List.mem_cons_of_mem _ h)
      have hidhd : id ≠ hd := fun h => hid (h ▸ List.mem_cons_self _ _)
      rw [List.foldl_cons, ih _ _ hidtl]
      cases hk : lookupAssoc acc.1.bySite hd with
      | some v => simp [reconcileStep, hk]
      | none =>
          cases hs : lookupAssoc settings.sites hd with
          | none => simp [reconcileStep, hk, hs]
          | some site =>
              simp [reconcileStep, hk, hs,
                lookupAssoc_setAssoc_ne _ _ _ _ hidhd]

/-- Helper: a listed configured id with no entry yet receives exactly the
default entry. -/
theorem reconcileFold_adds (settings : Settings) (now : Nat)
    (l : List String) :
    ∀ acc id site, id ∈ l →
      lookupAssoc settings.sites id = some site →
      lookupAssoc acc.1.bySite id = none →
      lookupAssoc ((l.foldl (reconcileStep settings now) acc).1.bySite) id =
        some { nextRun := computeNextRunAfterSuccess now site.schedule } := by
  induction l with
  | nil => intro acc id site h; cases h
  | cons hd tl ih =>
      intro acc id site hmem hsite habs
      rw [List.foldl_cons]
      by_cases hid : id = hd
      · subst hid
        have hstep : lookupAssoc ((reconcileStep settings now acc id).1.bySite)
            id = some { nextRun := computeNextRunAfterSuccess now site.schedule } := by
          simp [reconcileStep, habs, hsite, lookupAssoc_setAssoc_self]
        exact reconcileFold_preserves settings now tl _ _ _ hstep
      · have hmem2 : id ∈ tl := by
          rcases List.mem_cons.mp hmem with h | h
          · exact absurd h hid
          · exact h
        have habs2 : lookupAssoc ((reconcileStep settings now acc hd).1.bySite)
            id = none := by
          cases hk : lookupAssoc acc.1.bySite hd with
          | some v => simpa [reconcileStep, hk] using habs
          | none =>
              cases hs : lookupAssoc settings.sites hd with
              | none => simpa [reconcileStep, hk, hs] using habs
              | some shd =>
                  simp [reconcileStep, hk, hs,
                    lookupAssoc_setAssoc_ne _ _ _ _ hid, habs]
        exact ih _ _ _ hmem2 hsite habs2

/-- Helper: when every listed id already has an entry, the reconcile fold
is the identity and performs no writes. -/
theorem reconcileFold_noop (settings : Settings) (now : Nat)
    (l : List String) :
    ∀ st ws, (∀ id, id ∈ l → (lookupAssoc st.bySite id).isSome) →
      l.foldl (reconcileStep settings now) (st, ws) = (st, ws) := by
  induction l with
  | nil => intro st ws _; rfl
  | cons hd tl ih =>
      intro st ws hall
      have hhd := hall hd (List.mem_cons_self _ _)
      rw [List.foldl_cons]
      cases hk : lookupAssoc st.bySite hd with
      | none => rw [hk] at hhd; cases hhd
      | some v =>
          have hstep : reconcileStep settings now (st, ws) hd = (st, ws) := by
            simp [reconcileStep, hk]
          rw [hstep]
          exact ih st ws fun id hmem => hall id (List.mem_cons_of_mem _ hmem)

/-- C3: reconciliation only adds run-state entries for configured target
ids that have none, with `nextRun = computeNextRunAfterSuccess(now,
schedule)`; it never modifies an existing entry and touches no other id;
and it is idempotent: a second pass with unchanged configuration (at any
later instant) performs zero writes and leaves the state identical. -/
theorem reconcile_additive_and_idempotent (settings : Settings)
    (state : State) (now now2 : Nat) :
    (∀ id rs, lookupAssoc state.bySite id = some rs →
        lookupAssoc (reconcile settings state now).1.bySite id = some rs)
    ∧ (∀ id, id ∉ siteKeys settings →
        lookupAssoc (reconcile settings state now).1.bySite id =
          lookupAssoc state.bySite id)
    ∧ (∀ id site, lookupAssoc settings.sites id = some site →
        lookupAssoc state.bySite id = none →
        lookupAssoc (reconcile settings state now).1.bySite id =
          some { nextRun := computeNextRunAfterSuccess now site.schedule })
    ∧ reconcile settings (reconcile settings state now).1 now2 =
        ((reconcile settings state now).1, []) := by
  refine ⟨?_, ?_, ?_, ?_⟩
  · intro id rs h
    exact reconcileFold_preserves settings now (siteKeys settings) _ _ _ h
  · intro id hid
    exact reconcileFold_untouched settings now (siteKeys settings) _ _ hid
  · intro id site hsite habs
    exact reconcileFold_adds settings now (siteKeys settings) _ _ _
      (lookupAssoc_some_mem settings.sites id site hsite) hsite habs
  · have hall : ∀ id, id ∈ siteKeys settings →
        (lookupAssoc (reconcile settings state now).1.bySite id).isSome := by
      intro id hmem
      obtain ⟨site, hsite⟩ :=
        Option.isSome_iff_exists.mp (mem_lookupAssoc_isSome settings.sites id hmem)
      simp only [reconcile]
      cases habs : lookupAssoc state.bySite id with
      | some rs =>
          rw [reconcileFold_preserves settings now (siteKeys settings)
            (state, []) id rs habs]
          rfl
      | none =>
          rw [reconcileFold_adds settings now (siteKeys settings)
            (state, []) id site hmem hsite habs]
          rfl
    exact reconcileFold_noop settings now2 (siteKeys settings) _ _ hall

/-- Witness for C3: a two-site configuration with one pre-existing entry;
the existing entry is preserved, the missing one is created, and the
second pass is a no-op. -/
theorem reconcile_additive_and_idempotent_witness :
    lookupAssoc (reconcile
        ⟨[("a", ⟨"https://a.example", true, 30, Schedule.hourly 5⟩),
          ("b", ⟨"https://b.example", true, 30, Schedule.daily 9 0⟩)], none⟩
        ⟨[("b", { nextRun := 42 })]⟩ 1000).1.bySite "b" =
      some { nextRun := 42 }
    ∧ lookupAssoc (reconcile
        ⟨[("a", ⟨"https://a.example", true, 30, Schedule.hourly 5⟩),
          ("b", ⟨"https://b.example", true, 30, Schedule.daily 9 0⟩)], none⟩
        ⟨[("b", { nextRun := 42 })]⟩ 1000).1.bySite "a" =
      some { nextRun := computeNextRunAfterSuccess 1000 (Schedule.hourly 5) }
    ∧ reconcile
        ⟨[("a", ⟨"https://a.example", true, 30, Schedule.hourly 5⟩),
          ("b", ⟨"https://b.example", true, 30, Schedule.daily 9 0⟩)], none⟩
        (reconcile
          ⟨[("a", ⟨"https://a.example", true, 30, Schedule.hourly 5⟩),
            ("b", ⟨"https://b.example", true, 30, Schedule.daily 9 0⟩)], none⟩
          ⟨[("b", { nextRun := 42 })]⟩ 1000).1 999999 =
      ((reconcile
          ⟨[("a", ⟨"https://a.example", true, 30, Schedule.hourly 5⟩),
            ("b", ⟨"https://b.example", true, 30, Schedule.daily 9 0⟩)], none⟩
          ⟨[("b", { nextRun := 42 })]⟩ 1000).1, []) :=
  ⟨(reconcile_additive_and_idempotent
      ⟨[("a", ⟨"https://a.example", true, 30, Schedule.hourly 5⟩),
        ("b", ⟨"https://b.example", true, 30, Schedule.daily 9 0⟩)], none⟩
      ⟨[("b", { nextRun := 42 })]⟩ 1000 999999).1 "b" { nextRun := 42 }
      (by decide),
    (reconcile_additive_and_idempotent
      ⟨[("a", ⟨"https://a.example", true, 30, Schedule.hourly 5⟩),
        ("b", ⟨"https://b.example", true, 30, Schedule.daily 9 0⟩)], none⟩
      ⟨[("b", { nextRun := 42 })]⟩ 1000 999999).2.2.1 "a"
      ⟨"https://a.example", true, 30, Schedule.hourly 5⟩ (by decide) (by decide),
    (reconcile_additive_and_idempotent
      ⟨[("a", ⟨"https://a.example", true, 30, Schedule.hourly 5⟩),
        ("b", ⟨"https://b.example", true, 30, Schedule.daily 9 0⟩)], none⟩
      ⟨[("b", { nextRun := 42 })]⟩ 1000 999999).2.2.2⟩

/-- Helper: the loop body of `onAlarm` is exactly a guarded execution:
run and record the site when it is eligible, leave the accumulator alone
otherwise. -/
theorem onAlarmStep_eq_guard (settings : Settings) (snapshot : State)
    (now : Nat) (env : String → Env) (acc : State × List String)
    (siteId : String) :
    onAlarmStep settings snapshot now env acc siteId =
      if eligibleSite settings snapshot now siteId then
        (execStep settings now env acc.1 siteId, acc.2 ++ [siteId])
      else acc := by
  cases hsite : lookupAssoc settings.sites siteId with
  | none => simp [onAlarmStep, eligibleSite, hsite]
  | some site =>
      cases hen : site.enabled with
      | false => simp [onAlarmStep, eligibleSite, hsite, hen]
      | true =>
          cases hst : lookupAssoc snapshot.bySite siteId with
          | none => simp [onAlarmStep, eligibleSite, execStep, hsite, hen, hst]
          | some siteState =>
              by_cases hle : siteState.nextRun ≤ now
              · simp [onAlarmStep, eligibleSite, execStep, hsite, hen, hst,
                  hle, Nat.not_lt.mpr hle]
              · simp [onAlarmStep, eligibleSite, execStep, hsite, hen, hst,
                  hle, Nat.lt_of_not_le hle]

/-- Helper: folding a guarded step is folding the unguarded step over the
filtered list, recording exactly the filtered elements in order. -/
theorem foldl_guard_filter {σ : Type} (f : σ → String → σ)
    (p : String → Bool) (l : List String) :
    ∀ (st : σ) (ws : List String),
      l.foldl
          (fun acc x => if p x then (f acc.1 x, acc.2 ++ [x]) else acc)
          (st, ws) =
        ((l.filter p).foldl f st, ws ++ l.filter p) := by
  induction l with
  | nil => intro st ws; simp
  | cons hd tl ih =>
      intro st ws
      by_cases hp : p hd = true
      · simp [hp, ih]
      · simp [hp, ih, Bool.of_not_eq_true hp]

/-- Helper: the whole wake dispatch in closed form. -/
theorem onAlarm_eq_filtered (settings : Settings) (state : State)
    (now0 now : Nat) (env : String → Env) :
    onAlarm settings state now0 now env =
      (((sortedSiteIds settings).filter
          (eligibleSite settings (reconcile settings state now0).1 now)).foldl
        (execStep settings now env) (reconcile settings state now0).1,
       (sortedSiteIds settings).filter
         (eligibleSite settings (reconcile settings state now0).1 now)) := by
  have hext : (sortedSiteIds settings).foldl
      (onAlarmStep settings (reconcile settings state now0).1 now env)
      ((reconcile settings state now0).1, []) =
      (sortedSiteIds settings).foldl
        (fun acc x =>
          if eligibleSite settings (reconcile settings state now0).1 now x then
            (execStep settings now env acc.1 x, acc.2 ++ [x])
          else acc)
        ((reconcile settings state now0).1, []) := by
    apply List.foldl_ext
    intro a x _
    exact onAlarmStep_eq_guard settings (reconcile settings state now0).1
      now env a x
  rw [onAlarm, hext, foldl_guard_filter]
  simp

/-- C2: on every wake the scheduler executes exactly those targets whose
configuration has `enabled == true` and whose run state (in the reconciled
snapshot) is absent or has `nextRun ≤ now`; the executed ids are in
lexicographically sorted order; and the executions are strictly
sequential: the final state is the left-to-right fold of full `runSite`
executions over the executed list, each starting from the state the
previous one wrote.  Disabled targets and targets with `nextRun > now` are
skipped. -/
theorem onAlarm_dispatch (settings : Settings) (state : State)
    (now0 now : Nat) (env : String → Env) :
    (onAlarm settings state now0 now env).2 =
      (sortedSiteIds settings).filter
        (eligibleSite settings (reconcile settings state now0).1 now)
    ∧ List.Sorted (· ≤ ·) (onAlarm settings state now0 now env).2
    ∧ (∀ id, id ∈ (onAlarm settings state now0 now env).2 ↔
        id ∈ siteKeys settings ∧
          eligibleSite settings (reconcile settings state now0).1 now id = true)
    ∧ (onAlarm settings state now0 now env).1 =
        ((onAlarm settings state now0 now env).2).foldl
          (execStep settings now env) (reconcile settings state now0).1 := by
  have hrun := onAlarm_eq_filtered settings state now0 now env
  have hsorted : List.Sorted (· ≤ ·) (sortedSiteIds settings) :=
    List.sorted_insertionSort (· ≤ ·) (siteKeys settings)
  refine ⟨by rw [hrun], ?_, ?_, by rw [hrun]⟩
  · rw [hrun]
    exact List.Pairwise.sublist (List.filter_sublist _) hsorted
  · intro id
    rw [hrun]
    simp only [List.mem_filter]
    constructor
    · rintro ⟨hmem, hp⟩
      exact ⟨(List.perm_insertionSort (· ≤ ·) (siteKeys settings)).mem_iff.mp
        hmem, hp⟩
    · rintro ⟨hmem, hp⟩
      exact ⟨(List.perm_insertionSort (· ≤ ·) (siteKeys settings)).mem_iff.mpr
        hmem, hp⟩

end SiteWatcher
